import Mathlib

/-!
Shallow embedding of the `select.js` library (source file `lib.ts`): the
two public waiters `select` and `waitForRemovalFromDom`, their strategy
dispatch, and the four race-with-timeout implementations
`selectWithInterval`, `selectOnlyObserver`,
`waitForRemovalFromDomWithInterval` and
`waitForRemovalFromDomWithMutationObserver`.

The host DOM is abstracted the way the spec describes its external
collaborators: a query capability (`querySelector` results appear as
`Option DNode` inputs), a connectivity predicate (`isConnected : Bool`
inputs) and a structural-change subscription delivering batches of
mutation records.  A selector is fixed throughout, so each element node
carries the boolean result of `node.matches(selector)` directly.

The event-loop is modelled operationally: a promise executor runs to
completion atomically (so `cleanupFunction` is assigned before any timer
or observer callback can be dispatched), and afterwards the pending
interval / timeout / observer callbacks fire as a sequence of events.
-/

namespace SelectJs

/-- A DOM node, relative to the fixed selector of one call:
`element m cs` is an `Element` with `node.matches(selector) = m` and
child list `cs`; `other` is a non-`Element` node (text, comment, ...). -/
inductive DNode where
  | element (matchesSelector : Bool) (children : List DNode)
  | other
deriving Repr

/-- Source `lib.ts` lines 63-73, the pure test performed by `isSearchedElement`:
`node instanceof Element && node.matches(selector)`.  (The cleanup and
resolution side effects of the source function live in the race machine
below.) -/
def isSearchedElement : DNode → Bool
  | .element m _ => m
  | .other => false

/-- One `MutationRecord` as consumed by the observer callback:
its directly-changed `target` node and its `addedNodes` list. -/
structure MutationRecord where
  target : DNode
  addedNodes : List DNode

/-- Source `lib.ts` lines 61-83, the `MutationObserver` callback of
`selectOnlyObserver` as a pure function from one batch of records to the
node it resolves with (`none` when the batch produces no match): for each
record, the target is tested first; on failure the `addedNodes` are
scanned in order; the first node passing `isSearchedElement` is the
result and stops the whole batch. -/
def observerCallback : List MutationRecord → Option DNode
  | [] => none
  | r :: rs =>
    if isSearchedElement r.target then some r.target
    else
      match r.addedNodes.find? isSearchedElement with
      | some c => some c
      | none => observerCallback rs

/-- The prefix of a node list up to and including its first
`isSearchedElement` match (the whole list when nothing matches). -/
def takeThrough : List DNode → List DNode
  | [] => []
  | c :: cs => c :: if isSearchedElement c then [] else takeThrough cs

/-- The nodes on which the callback of `selectOnlyObserver` actually
invokes `isSearchedElement`, in invocation order (`lib.ts` lines 62-82):
a matching target ends the batch; otherwise the added nodes are tested up
to and including the first match, after which no further record is
processed. -/
def inspectedNodes : List MutationRecord → List DNode
  | [] => []
  | r :: rs =>
    if isSearchedElement r.target then [r.target]
    else
      r.target ::
        (takeThrough r.addedNodes ++
          if (r.addedNodes.find? isSearchedElement).isSome then []
          else inspectedNodes rs)

/-- The batch in callback-traversal order: each record contributes its
target followed by its added nodes, records in delivery order. -/
def batchNodes (rs : List MutationRecord) : List DNode :=
  rs.flatMap fun r => r.target :: r.addedNodes

mutual
/-- All strict descendants of a node, in document order.  Used only to
state what the observer callback does *not* inspect: nodes below a
directly-added node. -/
def descendants : DNode → List DNode
  | .other => []
  | .element _ cs => descendantsList cs

/-- Children of a node together with all their descendants. -/
def descendantsList : List DNode → List DNode
  | [] => []
  | c :: cs => c :: descendants c ++ descendantsList cs
end

/-! ## The race-with-timeout-and-cleanup primitive

All four strategy implementations share one promise-executor pattern
(`lib.ts` lines 53-101, 127-153, 193-226, 237-262): arm a detector
(interval or observer), arm a timeout, then assign `cleanupFunction`.
We model the live handles of one such executor as a state, and each
pending callback dispatch as an event processed by a step function. -/

/-- The live handles of one promise executor:
`detectorActive` — the interval is not yet cleared / the observer is not
yet disconnected; `timerActive` — the timeout is not yet cleared;
`cleanupAssigned` — the `cleanupFunction` variable has been assigned
(source comment: "it is set at the bottom of this promise"). -/
structure RaceState where
  detectorActive : Bool
  timerActive : Bool
  cleanupAssigned : Bool
deriving Repr, DecidableEq

/-- The assigned `cleanupFunction` (`lib.ts` lines 97-100, 149-152,
222-225, 258-261): clear the timeout and clear the interval /
disconnect the observer. -/
def cleanupFunction (s : RaceState) : RaceState :=
  { s with detectorActive := false, timerActive := false }

/-- Executor state once the `new Promise` construction has run to
completion: both mechanisms armed and `cleanupFunction` assigned.
JavaScript executes the executor synchronously and dispatches interval,
timeout and mutation-observer callbacks only in later tasks, so this is
the state in which every callback of the trace runs. -/
def initialRaceState : RaceState :=
  { detectorActive := true, timerActive := true, cleanupAssigned := true }

/-- A call of `resolve` or `reject` on the promise of the executor. -/
inductive Settle (α : Type) where
  | resolved (a : α)
  | rejected
deriving Repr, DecidableEq

/-- A detector callback dispatch whose condition check produced `found`.
If its handle was already cancelled the callback does not run at all.
Otherwise, on a hit it calls `cleanupFunction()` and then `resolve`
(`lib.ts` lines 68-69, 137-139, 203-205, 246-248); were
`cleanupFunction` not yet assigned, that call would throw before
`resolve`, so nothing would be emitted. -/
def detectorFires {α : Type} (s : RaceState) (found : Option α) :
    RaceState × List (Settle α) :=
  if s.detectorActive then
    match found with
    | some a =>
      if s.cleanupAssigned then (cleanupFunction s, [Settle.resolved a])
      else (s, [])
    | none => (s, [])
  else (s, [])

/-- The timeout callback dispatch (`lib.ts` lines 91-94, 143-146,
216-219, 252-255): if the timeout was not cleared, call
`cleanupFunction()` and then `reject()`. -/
def timeoutFires (α : Type) (s : RaceState) : RaceState × List (Settle α) :=
  if s.timerActive then
    if s.cleanupAssigned then (cleanupFunction s, [Settle.rejected])
    else (s, [])
  else (s, [])

/-- Run a step function over a sequence of callback dispatches,
collecting every `resolve`/`reject` call in order. -/
def runMachine {ε α : Type} (step : RaceState → ε → RaceState × List (Settle α)) :
    RaceState → List ε → RaceState × List (Settle α)
  | s, [] => (s, [])
  | s, e :: es =>
    let p := step s e
    let q := runMachine step p.1 es
    (q.1, p.2 ++ q.2)

/-- Source `lib.ts` lines 102-107 / 154-159: `try { return await promise } catch
{ return null }`.  The value of the promise is its first settlement; a
rejection is caught and becomes `null` (`some none`); `none` means the
promise never settled in the trace. -/
def catchToNull (ems : List (Settle DNode)) : Option (Option DNode) :=
  match ems.head? with
  | some (Settle.resolved e) => some (some e)
  | some Settle.rejected => some none
  | none => none

/-- Source `lib.ts` lines 263-268 / 227-232: `try { return await promise } catch
{ return false }`. -/
def catchToFalse (ems : List (Settle Bool)) : Option Bool :=
  match ems.head? with
  | some (Settle.resolved b) => some b
  | some Settle.rejected => some false
  | none => none

/-! ## The four strategy implementations as event machines -/

/-- Callback dispatches of `selectWithInterval` (`lib.ts` 115-161):
an interval tick carrying the `ancestor.querySelector(selector)` result
at that moment, or the timeout. -/
inductive SelIntervalEvent where
  | tick (query : Option DNode)
  | timeout

/-- The interval tick resolves iff the query found an element
(`lib.ts` lines 135-141). -/
def selIntervalStep (s : RaceState) : SelIntervalEvent → RaceState × List (Settle DNode)
  | .tick q => detectorFires s q
  | .timeout => timeoutFires DNode s

/-- Callback dispatches of `selectOnlyObserver` (`lib.ts` 44-109):
a mutation batch, or the timeout. -/
inductive SelObserverEvent where
  | batch (records : List MutationRecord)
  | timeout

/-- The observer callback processes the batch (`observerCallback`) and
resolves iff it finds a match (`lib.ts` lines 61-83). -/
def selObserverStep (s : RaceState) : SelObserverEvent → RaceState × List (Settle DNode)
  | .batch rs => detectorFires s (observerCallback rs)
  | .timeout => timeoutFires DNode s

/-- Callback dispatches of `waitForRemovalFromDomWithInterval`
(`lib.ts` 235-269): an interval tick carrying `element.isConnected` at
that moment, or the timeout. -/
inductive RemIntervalEvent where
  | tick (isConnected : Bool)
  | timeout

/-- The interval tick resolves `true` iff the element is no longer
connected (`lib.ts` lines 245-250). -/
def remIntervalStep (s : RaceState) : RemIntervalEvent → RaceState × List (Settle Bool)
  | .tick c => detectorFires s (if c then none else some true)
  | .timeout => timeoutFires Bool s

/-- Callback dispatches of `waitForRemovalFromDomWithMutationObserver`
(`lib.ts` 191-233): a mutation batch (whose records are ignored; only
`element.isConnected` at dispatch time matters), or the timeout. -/
inductive RemObserverEvent where
  | batch (isConnected : Bool)
  | timeout

/-- The observer callback re-checks connectivity and resolves `true`
iff the element is detached (`lib.ts` lines 201-208). -/
def remObserverStep (s : RaceState) : RemObserverEvent → RaceState × List (Settle Bool)
  | .batch c => detectorFires s (if c then none else some true)
  | .timeout => timeoutFires Bool s

/-- The `resolve`/`reject` calls made during one run of
the promise of `selectWithInterval`, from construction onward. -/
def selectWithIntervalEmissions (es : List SelIntervalEvent) : List (Settle DNode) :=
  (runMachine selIntervalStep initialRaceState es).2

/-- The value `selectWithInterval` returns to its caller for a given
trace of callback dispatches (`none` = still pending). -/
def selectWithIntervalResult (es : List SelIntervalEvent) : Option (Option DNode) :=
  catchToNull (selectWithIntervalEmissions es)

/-- The `resolve`/`reject` calls made during one run of
the promise of `selectOnlyObserver`. -/
def selectOnlyObserverEmissions (es : List SelObserverEvent) : List (Settle DNode) :=
  (runMachine selObserverStep initialRaceState es).2

/-- The value `selectOnlyObserver` returns to its caller for a given
trace of callback dispatches. -/
def selectOnlyObserverResult (es : List SelObserverEvent) : Option (Option DNode) :=
  catchToNull (selectOnlyObserverEmissions es)

/-- The `resolve`/`reject` calls made during one run of
the promise of `waitForRemovalFromDomWithInterval`. -/
def waitForRemovalFromDomWithIntervalEmissions (es : List RemIntervalEvent) :
    List (Settle Bool) :=
  (runMachine remIntervalStep initialRaceState es).2

/-- The value `waitForRemovalFromDomWithInterval` returns to its caller. -/
def waitForRemovalFromDomWithIntervalResult (es : List RemIntervalEvent) : Option Bool :=
  catchToFalse (waitForRemovalFromDomWithIntervalEmissions es)

/-- The `resolve`/`reject` calls made during one run of
the promise of `waitForRemovalFromDomWithMutationObserver`. -/
def waitForRemovalFromDomWithMutationObserverEmissions (es : List RemObserverEvent) :
    List (Settle Bool) :=
  (runMachine remObserverStep initialRaceState es).2

/-- The value `waitForRemovalFromDomWithMutationObserver` returns to its
caller. -/
def waitForRemovalFromDomWithMutationObserverResult (es : List RemObserverEvent) :
    Option Bool :=
  catchToFalse (waitForRemovalFromDomWithMutationObserverEmissions es)

/-! ## Strategy argument, option defaults and dispatch -/

/-- A strategy descriptor object at runtime: a `variant` string and the
optional fields `timeoutInMil` / `intervalInMil` (`none` = property
absent).  The TypeScript `Strategy` type only allows
`"interval"`/`"observer"`, but at runtime any string can arrive, which
is what the `switch` in the dispatch sees. -/
structure StrategyObj where
  variant : String
  timeoutInMil : Option Nat := none
  intervalInMil : Option Nat := none
deriving Repr, DecidableEq

/-- The `strategy` parameter of `select` / `waitForRemovalFromDom`:
a bare number or a descriptor object. -/
inductive StrategyArg where
  | num (n : Nat)
  | obj (o : StrategyObj)
deriving Repr, DecidableEq

/-- Source `lib.ts` line 32 / 182: `typeof strategy === "number" ? { variant:
"interval", timeoutInMil: strategy } : strategy`. -/
def parseStrategy : StrategyArg → StrategyObj
  | .num n => { variant := "interval", timeoutInMil := some n }
  | .obj o => o

/-- What `select` does after the early-exit check: return the early
element, enter one of the two strategy implementations (which is what
arms a timer/interval/observer), or fall through the `switch` and return
`undefined`. -/
inductive SelectPlan where
  | earlyReturn (e : DNode)
  | runInterval (options : StrategyObj)
  | runObserver (options : StrategyObj)
  | undefinedResult
deriving Repr

/-- Function `select` (`lib.ts` lines 18-39): `early` is the synchronous
`ancestor.querySelector(selector)` result at call time.  A hit returns
it at once (lines 27-30); otherwise the strategy is normalized (line 32)
and the `switch` on `variant` (lines 33-38) forwards the whole parsed
object to `selectWithInterval` or `selectOnlyObserver`; a variant
matching neither case falls out of the `switch` and the `async` function
returns `undefined`. -/
def select (early : Option DNode) (strategy : StrategyArg) : SelectPlan :=
  match early with
  | some e => .earlyReturn e
  | none =>
    let p := parseStrategy strategy
    if p.variant = "interval" then .runInterval p
    else if p.variant = "observer" then .runObserver p
    else .undefinedResult

/-- What `waitForRemovalFromDom` does after the early-exit check.
The interval implementation receives `timeoutInMil` and `intervalInMil`
positionally (line 185), the observer implementation only `timeoutInMil`
(line 187). -/
inductive RemovalPlan where
  | earlyReturn
  | runInterval (timeoutInMil intervalInMil : Option Nat)
  | runObserver (timeoutInMil : Option Nat)
  | undefinedResult
deriving Repr, DecidableEq

/-- Function `waitForRemovalFromDom` (`lib.ts` lines 170-189): `isConnected` is
`element.isConnected` at call time.  A detached element returns `true`
at once (lines 178-180); otherwise the strategy is normalized (line 182)
and dispatched (lines 183-188); an unknown variant falls through to
`undefined`. -/
def waitForRemovalFromDom (isConnected : Bool) (strategy : StrategyArg) : RemovalPlan :=
  if !isConnected then .earlyReturn
  else
    let p := parseStrategy strategy
    if p.variant = "interval" then .runInterval p.timeoutInMil p.intervalInMil
    else if p.variant = "observer" then .runObserver p.timeoutInMil
    else .undefinedResult

/-- Source `lib.ts` line 124: `const timeoutInMil = options?.timeoutInMil ?? 10_000`. -/
def selectWithIntervalTimeoutInMil (options : StrategyObj) : Nat :=
  options.timeoutInMil.getD 10000

/-- Source `lib.ts` line 125: `const intervalInMil = options?.intervalInMil ?? 50`. -/
def selectWithIntervalIntervalInMil (options : StrategyObj) : Nat :=
  options.intervalInMil.getD 50

/-- Source `lib.ts` line 51: `const timeoutInMil = options?.timeoutInMil ?? 10_000`. -/
def selectOnlyObserverTimeoutInMil (options : StrategyObj) : Nat :=
  options.timeoutInMil.getD 10000

/-- Source `lib.ts` line 235: default parameter `timeoutInMil = 10000` of
`waitForRemovalFromDomWithInterval` (an absent argument takes it). -/
def removalIntervalTimeoutInMil (timeoutInMil : Option Nat) : Nat :=
  timeoutInMil.getD 10000

/-- Source `lib.ts` line 235: default parameter `intervalInMil = 50` of
`waitForRemovalFromDomWithInterval`. -/
def removalIntervalIntervalInMil (intervalInMil : Option Nat) : Nat :=
  intervalInMil.getD 50

/-- Source `lib.ts` line 191: default parameter `timeoutInMil = 10000` of
`waitForRemovalFromDomWithMutationObserver`. -/
def removalObserverTimeoutInMil (timeoutInMil : Option Nat) : Nat :=
  timeoutInMil.getD 10000

/-! ## Helper lemmas about the race machine -/

/-- A step of the race machine either does nothing (cancelled handle, or
no hit) or — only from a state with a live handle and `cleanupFunction`
assigned — moves to the cleaned-up state while settling exactly once. -/
def StepOk {ε α : Type} (step : RaceState → ε → RaceState × List (Settle α)) : Prop :=
  ∀ s e, step s e = (s, []) ∨
    ((s.detectorActive = true ∨ s.timerActive = true) ∧
      (step s e).1 = cleanupFunction s ∧ (step s e).2.length = 1)

lemma detectorFires_ok {α : Type} (s : RaceState) (found : Option α) :
    detectorFires s found = (s, []) ∨
      ((s.detectorActive = true ∨ s.timerActive = true) ∧
        (detectorFires s found).1 = cleanupFunction s ∧
        (detectorFires s found).2.length = 1) := by
  by_cases hd : s.detectorActive
  · cases found with
    | none => left; simp [detectorFires, hd]
    | some a =>
      by_cases hc : s.cleanupAssigned
      · right
        refine ⟨Or.inl hd, ?_, ?_⟩ <;> simp [detectorFires, hd, hc]
      · left; simp [detectorFires, hd, hc]
  · left; simp [detectorFires, hd]

lemma timeoutFires_ok {α : Type} (s : RaceState) :
    timeoutFires α s = (s, []) ∨
      ((s.detectorActive = true ∨ s.timerActive = true) ∧
        (timeoutFires α s).1 = cleanupFunction s ∧
        (timeoutFires α s).2.length = 1) := by
  by_cases ht : s.timerActive
  · by_cases hc : s.cleanupAssigned
    · right
      refine ⟨Or.inr ht, ?_, ?_⟩ <;> simp [timeoutFires, ht, hc]
    · left; simp [timeoutFires, ht, hc]
  · left; simp [timeoutFires, ht]

lemma selIntervalStep_ok : StepOk selIntervalStep := by
  intro s e
  cases e with
  | tick q => exact detectorFires_ok s q
  | timeout => exact timeoutFires_ok s

lemma selObserverStep_ok : StepOk selObserverStep := by
  intro s e
  cases e with
  | batch rs => exact detectorFires_ok s (observerCallback rs)
  | timeout => exact timeoutFires_ok s

lemma remIntervalStep_ok : StepOk remIntervalStep := by
  intro s e
  cases e with
  | tick c => exact detectorFires_ok s _
  | timeout => exact timeoutFires_ok s

lemma remObserverStep_ok : StepOk remObserverStep := by
  intro s e
  cases e with
  | batch c => exact detectorFires_ok s _
  | timeout => exact timeoutFires_ok s

/-- Once both handles are cancelled, no callback does anything. -/
lemma runMachine_dead {ε α : Type} {step : RaceState → ε → RaceState × List (Settle α)}
    (hok : StepOk step) :
    ∀ (es : List ε) (s : RaceState), s.detectorActive = false → s.timerActive = false →
      runMachine step s es = (s, []) := by
  intro es
  induction es with
  | nil => intro s _ _; rfl
  | cons e es ih =>
    intro s hd ht
    have hstep : step s e = (s, []) := by
      rcases hok s e with h | ⟨hlive, _, _⟩
      · exact h
      · rcases hlive with h | h
        · rw [hd] at h; cases h
        · rw [ht] at h; cases h
    simp [runMachine, hstep, ih s hd ht]

/-- A run that settles nothing leaves the state untouched. -/
lemma runMachine_silent {ε α : Type} {step : RaceState → ε → RaceState × List (Settle α)}
    (hok : StepOk step) :
    ∀ (es : List ε) (s : RaceState), (runMachine step s es).2 = [] →
      (runMachine step s es).1 = s := by
  intro es
  induction es with
  | nil => intro s _; rfl
  | cons e es ih =>
    intro s hempty
    simp only [runMachine] at hempty ⊢
    rcases List.append_eq_nil.mp hempty with ⟨h1, h2⟩
    rcases hok s e with h | ⟨_, _, hlen⟩
    · rw [h] at h2 ⊢
      exact ih s h2
    · rw [h1] at hlen; cases hlen

/-- Emissions of a run split over an appended trace. -/
lemma runMachine_append {ε α : Type} (step : RaceState → ε → RaceState × List (Settle α)) :
    ∀ (es1 es2 : List ε) (s : RaceState),
      runMachine step s (es1 ++ es2) =
        ((runMachine step (runMachine step s es1).1 es2).1,
          (runMachine step s es1).2 ++ (runMachine step (runMachine step s es1).1 es2).2) := by
  intro es1
  induction es1 with
  | nil => intro es2 s; simp [runMachine]
  | cons e es1 ih =>
    intro es2 s
    simp [runMachine, ih es2 (step s e).1, List.append_assoc]

/-- At most one `resolve`/`reject` ever happens in a run: the first
settling callback reaches the cleaned-up state, from which
`runMachine_dead` applies. -/
lemma runMachine_le_one {ε α : Type} {step : RaceState → ε → RaceState × List (Settle α)}
    (hok : StepOk step) :
    ∀ (es : List ε) (s : RaceState), ((runMachine step s es).2).length ≤ 1 := by
  intro es
  induction es with
  | nil => intro s; simp [runMachine]
  | cons e es ih =>
    intro s
    rcases hok s e with h | ⟨_, hpost, hlen⟩
    · simp only [runMachine, h]
      simpa using ih s
    · have hdead : runMachine step (step s e).1 es = ((step s e).1, []) := by
        rw [hpost]
        exact runMachine_dead hok es _ rfl rfl
      simp only [runMachine, hdead]
      simpa using Nat.le_of_eq hlen

/-- If no event of the trace can ever `resolve`, every settlement of the
run is a rejection. -/
lemma runMachine_no_resolved {ε α : Type} {step : RaceState → ε → RaceState × List (Settle α)} :
    ∀ (es : List ε) (s : RaceState),
      (∀ e ∈ es, ∀ (s' : RaceState) (a : α), Settle.resolved a ∉ (step s' e).2) →
      ∀ x ∈ (runMachine step s es).2, x = Settle.rejected := by
  intro es
  induction es with
  | nil => intro s _ x hx; simp [runMachine] at hx
  | cons e es ih =>
    intro s hquiet x hx
    simp only [runMachine, List.mem_append] at hx
    rcases hx with hx | hx
    · cases x with
      | resolved a => exact absurd hx (hquiet e (List.mem_cons_self e es) s a)
      | rejected => rfl
    · exact ih (step s e).1 (fun e' he' => hquiet e' (List.mem_cons_of_mem e he')) x hx

/-- A detector callback whose condition check found nothing does nothing. -/
lemma detectorFires_none {α : Type} (s : RaceState) :
    detectorFires (α := α) s none = (s, []) := by
  by_cases hd : s.detectorActive <;> simp [detectorFires, hd]

/-- The timeout callback never calls `resolve`. -/
lemma timeoutFires_no_resolved {α : Type} (s : RaceState) (a : α) :
    Settle.resolved a ∉ (timeoutFires α s).2 := by
  by_cases ht : s.timerActive
  · by_cases hc : s.cleanupAssigned <;> simp [timeoutFires, ht, hc]
  · simp [timeoutFires, ht]

/-- A promise whose settlements are all rejections and nonempty hands
`null` to the caller of `select`. -/
lemma catchToNull_rejected (ems : List (Settle DNode)) (hne : ems ≠ [])
    (hall : ∀ x ∈ ems, x = Settle.rejected) : catchToNull ems = some none := by
  cases ems with
  | nil => exact absurd rfl hne
  | cons x xs =>
    have hx : x = Settle.rejected := hall x (List.mem_cons_self x xs)
    simp [catchToNull, hx]

/-- A promise whose settlements are all rejections and nonempty hands
`false` to the caller of `waitForRemovalFromDom`. -/
lemma catchToFalse_rejected (ems : List (Settle Bool)) (hne : ems ≠ [])
    (hall : ∀ x ∈ ems, x = Settle.rejected) : catchToFalse ems = some false := by
  cases ems with
  | nil => exact absurd rfl hne
  | cons x xs =>
    have hx : x = Settle.rejected := hall x (List.mem_cons_self x xs)
    simp [catchToFalse, hx]

/-- A run that settled at least once ends with both handles cancelled. -/
lemma runMachine_emitted_dead {ε α : Type}
    {step : RaceState → ε → RaceState × List (Settle α)} (hok : StepOk step) :
    ∀ (es : List ε) (s : RaceState), (runMachine step s es).2 ≠ [] →
      (runMachine step s es).1.detectorActive = false ∧
        (runMachine step s es).1.timerActive = false := by
  intro es
  induction es with
  | nil => intro s h; exact absurd rfl h
  | cons e es ih =>
    intro s hne
    rcases hok s e with h | ⟨_, hpost, _⟩
    · simp only [runMachine, h, List.nil_append] at hne ⊢
      exact ih s hne
    · have hdead : runMachine step (step s e).1 es = ((step s e).1, []) := by
        rw [hpost]
        exact runMachine_dead hok es _ rfl rfl
      simp only [runMachine, hdead]
      rw [hpost]
      exact ⟨rfl, rfl⟩

/-- Generic timeout scenario: when every event before the pending
timeout callback is unable to `resolve`, the run settles, and every
settlement of the run is a rejection. -/
lemma runMachine_timeout_rejects {ε α : Type}
    {step : RaceState → ε → RaceState × List (Settle α)} (hok : StepOk step) (tEv : ε)
    (hT : step initialRaceState tEv = (cleanupFunction initialRaceState, [Settle.rejected]))
    (pre post : List ε)
    (hquiet : ∀ e ∈ pre, ∀ (s : RaceState) (a : α), Settle.resolved a ∉ (step s e).2) :
    (runMachine step initialRaceState (pre ++ tEv :: post)).2 ≠ [] ∧
      ∀ x ∈ (runMachine step initialRaceState (pre ++ tEv :: post)).2,
        x = Settle.rejected := by
  have hsplit := runMachine_append step pre (tEv :: post) initialRaceState
  by_cases hpre : (runMachine step initialRaceState pre).2 = []
  · have hstate : (runMachine step initialRaceState pre).1 = initialRaceState :=
      runMachine_silent hok pre initialRaceState hpre
    have htail : runMachine step initialRaceState (tEv :: post) =
        (cleanupFunction initialRaceState, [Settle.rejected]) := by
      have hdead : runMachine step (cleanupFunction initialRaceState) post =
          (cleanupFunction initialRaceState, []) :=
        runMachine_dead hok post _ rfl rfl
      simp [runMachine, hT, hdead]
    rw [hsplit, hstate, hpre, htail]
    exact ⟨by simp, by simp⟩
  · have hdeadPre := runMachine_emitted_dead hok pre initialRaceState hpre
    have htail : runMachine step (runMachine step initialRaceState pre).1 (tEv :: post) =
        ((runMachine step initialRaceState pre).1, []) :=
      runMachine_dead hok (tEv :: post) _ hdeadPre.1 hdeadPre.2
    rw [hsplit, htail]
    refine ⟨by simpa using hpre, ?_⟩
    intro x hx
    simp only [List.append_nil] at hx
    exact runMachine_no_resolved pre initialRaceState hquiet x hx

/-! ## Helper lemmas about the observer callback -/

/-- The observer callback of `selectOnlyObserver` returns exactly the
first match of the batch taken in traversal order: the target of each record,
then its added nodes. -/
lemma observerCallback_eq_find (rs : List MutationRecord) :
    observerCallback rs = (batchNodes rs).find? isSearchedElement := by
  induction rs with
  | nil => rfl
  | cons r rs ih =>
    by_cases ht : isSearchedElement r.target
    · simp [observerCallback, batchNodes, ht, List.find?_cons_of_pos]
    · simp only [observerCallback, ht, if_false, batchNodes, List.flatMap_cons]
      rw [List.cons_append, List.find?_cons_of_neg _ ht, List.find?_append]
      cases hf : r.addedNodes.find? isSearchedElement with
      | some c => simp [hf]
      | none =>
        simp only [hf, Option.or, ih]
        rfl

/-- The nodes actually inspected by the observer callback are the
traversal-order prefix of the batch up to and including its first match. -/
lemma inspectedNodes_eq_takeThrough (rs : List MutationRecord) :
    inspectedNodes rs = takeThrough (batchNodes rs) := by
  induction rs with
  | nil => rfl
  | cons r rs ih =>
    have happ : ∀ (xs ys : List DNode),
        takeThrough (xs ++ ys) =
          takeThrough xs ++
            if (xs.find? isSearchedElement).isSome then [] else takeThrough ys := by
      intro xs
      induction xs with
      | nil => intro ys; simp [takeThrough]
      | cons c cs ihx =>
        intro ys
        by_cases hc : isSearchedElement c
        · simp [takeThrough, hc, List.find?_cons_of_pos]
        · simp [List.cons_append, takeThrough, hc, List.find?_cons_of_neg _ hc, ihx ys]
    by_cases ht : isSearchedElement r.target
    · simp [inspectedNodes, batchNodes, takeThrough, ht]
    · simp [inspectedNodes, batchNodes, takeThrough, ht, happ, ih, List.flatMap_def]

/-- An emitting step leaves the machine with both handles cancelled:
the handler calls `cleanupFunction()` before `resolve`/`reject`. -/
lemma stepOk_cleanup_before_emit {ε α : Type}
    {step : RaceState → ε → RaceState × List (Settle α)} (hok : StepOk step)
    (s : RaceState) (e : ε) :
    (step s e).2 = [] ∨
      ((step s e).1.detectorActive = false ∧ (step s e).1.timerActive = false) := by
  rcases hok s e with h | ⟨_, h1, _⟩
  · left; rw [h]
  · right; rw [h1]; exact ⟨rfl, rfl⟩

/-- A run of `selectOnlyObserver` events containing only matchless
batches neither settles nor changes the machine state. -/
lemma selObserver_quiet_run (pre : List SelObserverEvent)
    (hb : ∀ rs, SelObserverEvent.batch rs ∈ pre → observerCallback rs = none)
    (ht : SelObserverEvent.timeout ∉ pre) :
    runMachine selObserverStep initialRaceState pre = (initialRaceState, []) := by
  induction pre with
  | nil => rfl
  | cons e es ih =>
    cases e with
    | batch rs =>
      have hnone : observerCallback rs = none := hb rs (List.mem_cons_self _ _)
      have hstep : selObserverStep initialRaceState (SelObserverEvent.batch rs) =
          (initialRaceState, []) := by
        simp [selObserverStep, hnone, detectorFires_none]
      have ihres := ih (fun rs' h => hb rs' (List.mem_cons_of_mem _ h))
        (fun h => ht (List.mem_cons_of_mem _ h))
      simp [runMachine, hstep, ihres]
    | timeout => exact absurd (List.mem_cons_self _ _) ht

/-! ## The claims -/

/-- C1: for every call to `select` or `waitForRemovalFromDom` (either
strategy), at most one settlement is ever produced; the first completion
path to fire has already run `cleanupFunction` — cancelling the
competing timer/interval and disconnecting the observer — when the
settlement is emitted; and running the cleanup a second time is a
no-op. -/
theorem race_single_settlement_and_idempotent_cleanup :
    (∀ es, (selectWithIntervalEmissions es).length ≤ 1)
    ∧ (∀ es, (selectOnlyObserverEmissions es).length ≤ 1)
    ∧ (∀ es, (waitForRemovalFromDomWithIntervalEmissions es).length ≤ 1)
    ∧ (∀ es, (waitForRemovalFromDomWithMutationObserverEmissions es).length ≤ 1)
    ∧ (∀ s e, (selIntervalStep s e).2 = [] ∨
        ((selIntervalStep s e).1.detectorActive = false ∧
          (selIntervalStep s e).1.timerActive = false))
    ∧ (∀ s e, (selObserverStep s e).2 = [] ∨
        ((selObserverStep s e).1.detectorActive = false ∧
          (selObserverStep s e).1.timerActive = false))
    ∧ (∀ s e, (remIntervalStep s e).2 = [] ∨
        ((remIntervalStep s e).1.detectorActive = false ∧
          (remIntervalStep s e).1.timerActive = false))
    ∧ (∀ s e, (remObserverStep s e).2 = [] ∨
        ((remObserverStep s e).1.detectorActive = false ∧
          (remObserverStep s e).1.timerActive = false))
    ∧ (∀ s, cleanupFunction (cleanupFunction s) = cleanupFunction s) :=
  ⟨fun es => runMachine_le_one selIntervalStep_ok es initialRaceState,
    fun es => runMachine_le_one selObserverStep_ok es initialRaceState,
    fun es => runMachine_le_one remIntervalStep_ok es initialRaceState,
    fun es => runMachine_le_one remObserverStep_ok es initialRaceState,
    stepOk_cleanup_before_emit selIntervalStep_ok,
    stepOk_cleanup_before_emit selObserverStep_ok,
    stepOk_cleanup_before_emit remIntervalStep_ok,
    stepOk_cleanup_before_emit remObserverStep_ok,
    fun _ => rfl⟩

/-- C3: when the condition already holds at call time — the selector
matches (`querySelector` returns a node) or the element is already
disconnected — `select` returns that element and `waitForRemovalFromDom`
returns `true` through the early-exit branch, for every strategy
argument, without entering a strategy implementation (so no timer,
interval or observer is created). -/
theorem early_exit_is_synchronous :
    (∀ (e : DNode) (strat : StrategyArg),
      select (some e) strat = SelectPlan.earlyReturn e)
    ∧ (∀ strat : StrategyArg,
      waitForRemovalFromDom false strat = RemovalPlan.earlyReturn) :=
  ⟨fun _ _ => rfl, fun _ => rfl⟩

/-- C6: within one mutation batch, the directly-changed target of each record
is tested before the added children of that record (the traversal order of
`batchNodes`), the first matching node is the one resolved with, and
nothing past the first match is inspected. -/
theorem batch_target_first_and_stop_at_first_match :
    (∀ rs, observerCallback rs = (batchNodes rs).find? isSearchedElement)
    ∧ (∀ rs, inspectedNodes rs = takeThrough (batchNodes rs)) :=
  ⟨observerCallback_eq_find, inspectedNodes_eq_takeThrough⟩

/-- C7: a bare number `n` as the strategy argument is parsed into
`{variant: "interval", timeoutInMil: n}` with no `intervalInMil`, so
both public functions dispatch exactly as for that descriptor, and the
interval implementation then uses timeout `n` with the default 50ms poll
interval. -/
theorem bare_number_equals_interval_descriptor :
    ∀ (n : Nat) (early : Option DNode) (conn : Bool),
      select early (StrategyArg.num n) =
        select early (StrategyArg.obj { variant := "interval", timeoutInMil := some n })
      ∧ waitForRemovalFromDom conn (StrategyArg.num n) =
        waitForRemovalFromDom conn
          (StrategyArg.obj { variant := "interval", timeoutInMil := some n })
      ∧ selectWithIntervalTimeoutInMil (parseStrategy (StrategyArg.num n)) = n
      ∧ selectWithIntervalIntervalInMil (parseStrategy (StrategyArg.num n)) = 50 :=
  fun _ _ _ => ⟨rfl, rfl, rfl, rfl⟩

/-- C8: absent options fall back to the documented defaults in every
implementation: timeout 10000ms (`selectWithInterval` line 124,
`selectOnlyObserver` line 51, and the default parameters of both removal
implementations) and poll interval 50ms (`selectWithInterval` line 125
and `waitForRemovalFromDomWithInterval`). -/
theorem missing_options_use_documented_defaults :
    ∀ (v : String) (t iv : Option Nat),
      selectWithIntervalTimeoutInMil { variant := v, intervalInMil := iv } = 10000
      ∧ selectWithIntervalIntervalInMil { variant := v, timeoutInMil := t } = 50
      ∧ selectOnlyObserverTimeoutInMil { variant := v, intervalInMil := iv } = 10000
      ∧ removalIntervalTimeoutInMil none = 10000
      ∧ removalIntervalIntervalInMil none = 50
      ∧ removalObserverTimeoutInMil none = 10000 :=
  fun _ _ _ => ⟨rfl, rfl, rfl, rfl, rfl, rfl⟩

/-- C9: a strategy object whose `variant` is neither `"interval"` nor
`"observer"` matches no `switch` case, so when the early-exit check
fails both public functions fall through and return `undefined`
(`SelectPlan.undefinedResult` / `RemovalPlan.undefinedResult`, distinct
from every element, `null`, `true` and `false` outcome). -/
theorem unknown_variant_returns_undefined :
    ∀ (o : StrategyObj), o.variant ≠ "interval" → o.variant ≠ "observer" →
      select none (StrategyArg.obj o) = SelectPlan.undefinedResult
      ∧ waitForRemovalFromDom true (StrategyArg.obj o) = RemovalPlan.undefinedResult := by
  intro o h1 h2
  constructor
  · simp [select, parseStrategy, h1, h2]
  · simp [waitForRemovalFromDom, parseStrategy, h1, h2]

/-- Witness for C9 at the concrete malformed descriptor
`{variant: "bogus"}`. -/
theorem unknown_variant_returns_undefined_witness :
    select none (StrategyArg.obj { variant := "bogus" }) = SelectPlan.undefinedResult
    ∧ waitForRemovalFromDom true (StrategyArg.obj { variant := "bogus" }) =
      RemovalPlan.undefinedResult :=
  unknown_variant_returns_undefined { variant := "bogus" } (by decide) (by decide)

/-- C2 (counterexample): the observer callback does not descend below a
directly-added node.  Here the batch adds `element false [element true []]`
whose child (a descendant at depth 1 under the added node, listed by
`descendants`) matches the selector; the callback inspects only the
target of the record and the added node itself, finds no match, and the call
later times out to `null` instead of resolving with the descendant. -/
theorem observer_ignores_nested_descendants :
    descendants (DNode.element false [DNode.element true []]) = [DNode.element true []]
    ∧ isSearchedElement (DNode.element true []) = true
    ∧ inspectedNodes [⟨DNode.other, [DNode.element false [DNode.element true []]]⟩] =
        [DNode.other, DNode.element false [DNode.element true []]]
    ∧ observerCallback [⟨DNode.other, [DNode.element false [DNode.element true []]]⟩] = none
    ∧ selectOnlyObserverResult
        [SelObserverEvent.batch [⟨DNode.other, [DNode.element false [DNode.element true []]]⟩],
          SelObserverEvent.timeout] = some none :=
  ⟨rfl, rfl, rfl, rfl, rfl⟩

/-- C2 (amended): on each batch, the directly-changed target node and
the directly-added nodes themselves (not their deeper descendants) are
inspected against the selector, and after any number of matchless
batches the promise resolves with the first matching one of the batch. -/
theorem observer_resolves_first_direct_match :
    (∀ rs, observerCallback rs = (batchNodes rs).find? isSearchedElement)
    ∧ ∀ (pre : List SelObserverEvent) (rs : List MutationRecord) (e : DNode)
        (rest : List SelObserverEvent),
        (∀ rs', SelObserverEvent.batch rs' ∈ pre → observerCallback rs' = none) →
        SelObserverEvent.timeout ∉ pre →
        observerCallback rs = some e →
        selectOnlyObserverResult (pre ++ SelObserverEvent.batch rs :: rest) =
          some (some e) := by
  refine ⟨observerCallback_eq_find, ?_⟩
  intro pre rs e rest hb htm hcb
  unfold selectOnlyObserverResult selectOnlyObserverEmissions
  rw [runMachine_append, selObserver_quiet_run pre hb htm]
  have hstep : selObserverStep initialRaceState (SelObserverEvent.batch rs) =
      (cleanupFunction initialRaceState, [Settle.resolved e]) := by
    simp [selObserverStep, hcb, detectorFires, initialRaceState]
  simp [runMachine, hstep, catchToNull]

/-- Witness for C2 (amended): a batch whose added node matches resolves
the call with that node. -/
theorem observer_resolves_first_direct_match_witness :
    selectOnlyObserverResult
      [SelObserverEvent.batch [⟨DNode.other, [DNode.element true []]⟩]] =
      some (some (DNode.element true [])) :=
  observer_resolves_first_direct_match.2 [] [⟨DNode.other, [DNode.element true []]⟩]
    (DNode.element true []) [] (by simp) (by simp) rfl

/-- C4: whenever the pending timeout callback fires after only
condition-false callbacks (matchless queries/batches, still-connected
checks), the promise is rejected, the surrounding `try`/`catch` converts
the rejection, and the caller receives the plain not-found value —
`null` for `select`, `false` for `waitForRemovalFromDom` — in all four
strategy implementations. -/
theorem timeout_becomes_not_found_value :
    (∀ (pre post : List SelIntervalEvent),
      (∀ q, SelIntervalEvent.tick q ∈ pre → q = none) →
      selectWithIntervalResult (pre ++ SelIntervalEvent.timeout :: post) = some none)
    ∧ (∀ (pre post : List SelObserverEvent),
      (∀ rs, SelObserverEvent.batch rs ∈ pre → observerCallback rs = none) →
      selectOnlyObserverResult (pre ++ SelObserverEvent.timeout :: post) = some none)
    ∧ (∀ (pre post : List RemIntervalEvent),
      (∀ c, RemIntervalEvent.tick c ∈ pre → c = true) →
      waitForRemovalFromDomWithIntervalResult (pre ++ RemIntervalEvent.timeout :: post) =
        some false)
    ∧ (∀ (pre post : List RemObserverEvent),
      (∀ c, RemObserverEvent.batch c ∈ pre → c = true) →
      waitForRemovalFromDomWithMutationObserverResult
        (pre ++ RemObserverEvent.timeout :: post) = some false) := by
  refine ⟨?_, ?_, ?_, ?_⟩
  · intro pre post hpre
    have hq : ∀ e ∈ pre, ∀ (s : RaceState) (a : DNode),
        Settle.resolved a ∉ (selIntervalStep s e).2 := by
      intro e he s a
      cases e with
      | tick q =>
        have hq' := hpre q he
        subst hq'
        simp [selIntervalStep, detectorFires_none]
      | timeout => exact timeoutFires_no_resolved s a
    have h := runMachine_timeout_rejects selIntervalStep_ok SelIntervalEvent.timeout rfl
      pre post hq
    exact catchToNull_rejected _ h.1 h.2
  · intro pre post hpre
    have hq : ∀ e ∈ pre, ∀ (s : RaceState) (a : DNode),
        Settle.resolved a ∉ (selObserverStep s e).2 := by
      intro e he s a
      cases e with
      | batch rs =>
        have hq' := hpre rs he
        simp [selObserverStep, hq', detectorFires_none]
      | timeout => exact timeoutFires_no_resolved s a
    have h := runMachine_timeout_rejects selObserverStep_ok SelObserverEvent.timeout rfl
      pre post hq
    exact catchToNull_rejected _ h.1 h.2
  · intro pre post hpre
    have hq : ∀ e ∈ pre, ∀ (s : RaceState) (a : Bool),
        Settle.resolved a ∉ (remIntervalStep s e).2 := by
      intro e he s a
      cases e with
      | tick c =>
        have hq' := hpre c he
        subst hq'
        simp [remIntervalStep, detectorFires_none]
      | timeout => exact timeoutFires_no_resolved s a
    have h := runMachine_timeout_rejects remIntervalStep_ok RemIntervalEvent.timeout rfl
      pre post hq
    exact catchToFalse_rejected _ h.1 h.2
  · intro pre post hpre
    have hq : ∀ e ∈ pre, ∀ (s : RaceState) (a : Bool),
        Settle.resolved a ∉ (remObserverStep s e).2 := by
      intro e he s a
      cases e with
      | batch c =>
        have hq' := hpre c he
        subst hq'
        simp [remObserverStep, detectorFires_none]
      | timeout => exact timeoutFires_no_resolved s a
    have h := runMachine_timeout_rejects remObserverStep_ok RemObserverEvent.timeout rfl
      pre post hq
    exact catchToFalse_rejected _ h.1 h.2

/-- Witness for C4: concrete timeout traces for the four
implementations, each after one condition-false callback (none for the
observer variant of `select`). -/
theorem timeout_becomes_not_found_value_witness :
    selectWithIntervalResult [SelIntervalEvent.tick none, SelIntervalEvent.timeout] =
      some none
    ∧ selectOnlyObserverResult [SelObserverEvent.timeout] = some none
    ∧ waitForRemovalFromDomWithIntervalResult
        [RemIntervalEvent.tick true, RemIntervalEvent.timeout] = some false
    ∧ waitForRemovalFromDomWithMutationObserverResult
        [RemObserverEvent.batch true, RemObserverEvent.timeout] = some false :=
  ⟨timeout_becomes_not_found_value.1 [SelIntervalEvent.tick none] []
      (by intro q h; simpa using h),
    timeout_becomes_not_found_value.2.1 [] [] (by simp),
    timeout_becomes_not_found_value.2.2.1 [RemIntervalEvent.tick true] []
      (by intro c h; simpa using h),
    timeout_becomes_not_found_value.2.2.2 [RemObserverEvent.batch true] []
      (by intro c h; simpa using h)⟩

/-- C5: a success signalled at the very moment of construction is not
lost.  The executor runs to completion before any callback can be
dispatched, so `cleanupFunction` is already assigned
(`initialRaceState.cleanupAssigned = true`) when the first callback —
carrying a mutation queued during construction, or an immediately
successful poll — runs, and the caller observes the success. -/
theorem construction_time_signal_still_succeeds :
    initialRaceState.cleanupAssigned = true
    ∧ (∀ (rs : List MutationRecord) (e : DNode) (rest : List SelObserverEvent),
        observerCallback rs = some e →
        selectOnlyObserverResult (SelObserverEvent.batch rs :: rest) = some (some e))
    ∧ (∀ (q : DNode) (rest : List SelIntervalEvent),
        selectWithIntervalResult (SelIntervalEvent.tick (some q) :: rest) =
          some (some q)) := by
  refine ⟨rfl, ?_, ?_⟩
  · intro rs e rest hcb
    have hstep : selObserverStep initialRaceState (SelObserverEvent.batch rs) =
        (cleanupFunction initialRaceState, [Settle.resolved e]) := by
      simp [selObserverStep, hcb, detectorFires, initialRaceState]
    unfold selectOnlyObserverResult selectOnlyObserverEmissions
    simp [runMachine, hstep, catchToNull]
  · intro q rest
    unfold selectWithIntervalResult selectWithIntervalEmissions
    simp [runMachine, selIntervalStep, detectorFires, initialRaceState, catchToNull]

/-- Witness for C5: a construction-time batch containing a matching
added node resolves `selectOnlyObserver` with it; an immediately
successful first poll resolves `selectWithInterval`. -/
theorem construction_time_signal_still_succeeds_witness :
    selectOnlyObserverResult
      [SelObserverEvent.batch [⟨DNode.element true [], []⟩]] =
      some (some (DNode.element true []))
    ∧ selectWithIntervalResult [SelIntervalEvent.tick (some DNode.other)] =
      some (some DNode.other) :=
  ⟨construction_time_signal_still_succeeds.2.1 [⟨DNode.element true [], []⟩]
      (DNode.element true []) [] rfl,
    construction_time_signal_still_succeeds.2.2 DNode.other []⟩

/-- C10: on the early-exit path the strategy argument is never
inspected, so any two calls differing only in strategy — malformed
values included — return the same result. -/
theorem early_exit_ignores_strategy :
    (∀ (e : DNode) (s1 s2 : StrategyArg), select (some e) s1 = select (some e) s2)
    ∧ (∀ (s1 s2 : StrategyArg),
      waitForRemovalFromDom false s1 = waitForRemovalFromDom false s2) :=
  ⟨fun _ _ _ => rfl, fun _ _ => rfl⟩

end SelectJs
